import Mathlib

/-!
Verification of the project admission, authorization-cascade and token-lifecycle
engine of the argo-cd repository, together with its generic redis cache client
(`util/cache/redis.go`).

The redis cache client (`marshal`, `unmarshal`, `Get`, `Rename`, `Set`, `getKey`)
is embedded directly from `src/util/cache/redis.go`.  The project server itself
(package `server/project`: `Update`, `Delete`, `CreateToken`, `DeleteToken`,
`NormalizeProjs`) is not among the provided sources — only its test file is — so
those operations are modelled from the specification, as marked on each
definition.
-/

set_option maxRecDepth 4000

namespace Argo

/-- Modelled from the spec: the shell-style glob matcher (spec section 4.1); the
matcher implementation (`util/glob`) is not among the provided sources.  `*`
matches any run of characters, `?` matches any single character, matching is
anchored to the full string.  The fuel argument only bounds the recursion
depth: every step shrinks the combined length of pattern and value, so the
budget `globMatch` supplies is never exhausted. -/
def globMatchFuel : Nat → List Char → List Char → Bool
  | 0, _, _ => false
  | _ + 1, [], [] => true
  | _ + 1, [], _ :: _ => false
  | fuel + 1, '*' :: ps, [] => globMatchFuel fuel ps []
  | fuel + 1, '*' :: ps, c :: ss =>
    globMatchFuel fuel ps (c :: ss) || globMatchFuel fuel ('*' :: ps) ss
  | fuel + 1, '?' :: ps, _ :: ss => globMatchFuel fuel ps ss
  | _ + 1, '?' :: _, [] => false
  | fuel + 1, p :: ps, c :: ss => (p == c) && globMatchFuel fuel ps ss
  | _ + 1, _ :: _, [] => false

/-- The glob matcher with enough fuel for its anchored match (see
`globMatchFuel`). -/
def globMatch (p s : List Char) : Bool :=
  globMatchFuel (p.length + s.length + 1) p s

/-- Modelled from the spec: string-level wrapper of the glob matcher; a literal
`*` pattern matches any value, including the empty one (spec section 4.1). -/
def matchesGlob (pattern value : String) : Bool :=
  if pattern = "*" then true else globMatch pattern.data value.data

/-- A deployment destination pattern pair (`v1alpha1.ApplicationDestination`):
a server URL or cluster name plus a namespace (the Go field `Namespace` is a
Lean keyword, rendered `ns`). -/
structure ApplicationDestination where
  server : String := ""
  name : String := ""
  ns : String := ""
deriving DecidableEq, Repr

/-- A resource group/kind filter (`metav1.GroupKind`). -/
structure GroupKind where
  group : String := ""
  kind : String := ""
deriving DecidableEq, Repr

/-- A role-scoped bearer token record (`v1alpha1.JWTToken`): issued-at seconds,
optional expiry, optional opaque id (the Go zero value `""` means absent). -/
structure JWTToken where
  issuedAt : Int := 0
  expiresAt : Int := 0
  id : String := ""
deriving DecidableEq, Repr

/-- A project role (`v1alpha1.ProjectRole`): policies, group bindings and the
legacy token storage. -/
structure ProjectRole where
  name : String := ""
  description : String := ""
  policies : List String := []
  groups : List String := []
  jwtTokens : List JWTToken := []
deriving DecidableEq, Repr

/-- The mutable part of a project (`v1alpha1.AppProjectSpec`); sync windows are
outside the scope of the verified claims and are omitted. -/
structure AppProjectSpec where
  sourceRepos : List String := []
  destinations : List ApplicationDestination := []
  roles : List ProjectRole := []
  clusterResourceWhitelist : List GroupKind := []
  namespaceResourceBlacklist : List GroupKind := []
deriving DecidableEq, Repr

/-- The status projection of a project (`v1alpha1.AppProjectStatus`): role name
to issued-token list, kept as an association list to preserve order. -/
structure AppProjectStatus where
  jwtTokensByRole : List (String × List JWTToken) := []
deriving DecidableEq, Repr

/-- A project (`v1alpha1.AppProject`): cluster-scoped identity plus spec and
status. -/
structure AppProject where
  name : String := ""
  spec : AppProjectSpec := {}
  status : AppProjectStatus := {}
deriving DecidableEq, Repr

/-- An application (`v1alpha1.Application`), read-only input here: the project
it references, its source repository URLs and its destination. -/
structure Application where
  name : String := ""
  project : String := ""
  sources : List String := []
  destination : ApplicationDestination := {}
deriving DecidableEq, Repr

/-! ### NormalizeProjects (spec section 4.5) -/

/-- Association-list lookup for the status token projection. -/
def lookupTokens : List (String × List JWTToken) → String → Option (List JWTToken)
  | [], _ => none
  | (k, v) :: rest, n => if k == n then some v else lookupTokens rest n

/-- Modelled from the spec: `NormalizeProjs` on one project (spec section 4.5,
`server/project` is not among the provided sources): overwrite each role's
status token list with its spec token list. -/
def normalizeProject (p : AppProject) : AppProject :=
  { p with status := ⟨p.spec.roles.map (fun r => (r.name, r.jwtTokens))⟩ }

/-- Modelled from the spec: `NormalizeProjs` over every project (spec section
4.5). -/
def normalizeProjects (ps : List AppProject) : List AppProject :=
  ps.map normalizeProject

/-! ### Error taxonomy (spec section 7) -/

/-- The RPC status codes this core produces (spec section 7). -/
inductive StatusCode where
  | InvalidArgument
  | AlreadyExists
  | PermissionDenied
  | NotFound
deriving DecidableEq, Repr

/-- An RPC-style status error: a code and a message. -/
structure StatusError where
  code : StatusCode
  message : String
deriving DecidableEq, Repr

/-! ### Delete (spec sections 3 and 8) -/

/-- The applications whose `project` field references the given project name. -/
def referencingApps (apps : List Application) (projName : String) : List Application :=
  apps.filter (fun a => a.project == projName)

/-- Modelled from the spec: the project server's `Delete` admission logic
(`server/project` is not among the provided sources): the reserved name
`default` cannot be deleted, and a project referenced by N >= 1 live
applications cannot be deleted; the error names N. -/
def deleteProject (projName : String) (apps : List Application) : Except StatusError Unit :=
  if projName = "default" then
    .error ⟨.InvalidArgument, "cannot delete project 'default'"⟩
  else
    let refs := (referencingApps apps projName).length
    if refs > 0 then
      .error ⟨.InvalidArgument,
        "project is referenced by " ++ toString refs ++ " applications"⟩
    else .ok ()

/-! ### Authorization cascade (spec section 4.3) -/

/-- A failed fine-grained permission check: the resource kind, the action and
the offending object the denial names. -/
structure PermissionError where
  resource : String
  action : String
  object : String
deriving DecidableEq, Repr

/-- The permission-denied message naming resource kind, action and object. -/
def permissionDeniedMessage (e : PermissionError) : String :=
  "permission denied: " ++ e.resource ++ ", " ++ e.action ++ ", " ++ e.object

/-- Modelled from the spec: a destination's server-or-name value, the object of
the derived `clusters` checks (spec section 4.3; `server/project` is not among
the provided sources). -/
def serverOrName (d : ApplicationDestination) : String :=
  if d.server ≠ "" then d.server else d.name

/-- Modelled from the spec: the ordered fine-grained checks derived from the
field-level delta between old and new spec (spec section 4.3): if the
destinations, cluster-resource whitelist or namespace-resource blacklist
differ, `clusters:update` on every destination of the union of old and new
destination lists, old list first; then, if the source repos differ,
`repositories:update` on every URL of the union of old and new source-repo
lists, same ordering. -/
def derivedChecks (old new : AppProjectSpec) : List PermissionError :=
  (if old.destinations ≠ new.destinations
      ∨ old.clusterResourceWhitelist ≠ new.clusterResourceWhitelist
      ∨ old.namespaceResourceBlacklist ≠ new.namespaceResourceBlacklist then
    (old.destinations ++ new.destinations).map
      (fun d => ⟨"clusters", "update", serverOrName d⟩)
  else []) ++
  (if old.sourceRepos ≠ new.sourceRepos then
    (old.sourceRepos ++ new.sourceRepos).map
      (fun r => ⟨"repositories", "update", r⟩)
  else [])

/-- Modelled from the spec: the whole Update authorization cascade (spec
section 4.3): the caller must hold `projects:update` on the project name, then
the derived checks run in their fixed order, stopping at the first denial;
`none` means the update is authorized. -/
def authorizeUpdate (enforce : String → String → String → Bool)
    (projName : String) (old new : AppProjectSpec) : Option PermissionError :=
  if enforce "projects" "update" projName then
    (derivedChecks old new).find? (fun c => !enforce c.resource c.action c.object)
  else some ⟨"projects", "update", projName⟩

/-! ### Policy grammar validator (spec section 4.2) -/

/-- Whitespace for field trimming. -/
def isSpaceChar (c : Char) : Bool :=
  c == ' ' || c == '\t' || c == '\n' || c == '\r'

/-- Splitting a character list at every occurrence of a separator. -/
def splitChar (sep : Char) : List Char → List (List Char)
  | [] => [[]]
  | c :: cs =>
    if c = sep then [] :: splitChar sep cs
    else
      match splitChar sep cs with
      | [] => [[c]]
      | f :: fs => (c :: f) :: fs

/-- Leading and trailing whitespace removed. -/
def trimChars (l : List Char) : List Char :=
  ((l.dropWhile isSpaceChar).reverse.dropWhile isSpaceChar).reverse

/-- Modelled from the spec: the comma-separated fields of a policy string, each
trimmed (spec section 4.2; the policy validator of `util/rbac` is not among
the provided sources). -/
def policyFields (s : String) : List String :=
  (splitChar ',' s.data).map (fun f => String.mk (trimChars f))

/-- The canonical stored form: fields joined by a comma and a single space. -/
def joinFields (fs : List String) : String :=
  String.intercalate ", " fs

/-- Modelled from the spec: canonicalization of a policy string (spec section
4.2): a policy authored with or without spaces around commas normalizes to the
same canonical form before storage. -/
def normalizePolicy (s : String) : String :=
  joinFields (policyFields s)

/-- The only subject a policy of the given project and role may carry. -/
def expectedSubject (projName roleName : String) : String :=
  "proj:" ++ projName ++ ":" ++ roleName

/-- Modelled from the spec: whether a policy object references the owning
project: one of `<project>/*`, `<project>/<namespace>/<appname>` or
`<project>/<appname>` (spec section 4.2). -/
def objectForProject (projName object : String) : Bool :=
  match splitChar '/' object.data with
  | [p, _] => String.mk p == projName
  | [p, _, _] => String.mk p == projName
  | _ => false

/-- The subject validation message, naming the expected subject. -/
def subjectErrMessage (projName roleName : String) : String :=
  "policy subject must be: '" ++ expectedSubject projName roleName ++ "'"

/-- The object validation message, enumerating the accepted object forms. -/
def objectErrMessage (projName : String) : String :=
  "object must be of form '" ++ projName ++ "/*', '" ++ projName
    ++ "[/<NAMESPACE>]/<APPNAME>' or '" ++ projName ++ "/<APPNAME>'"

/-- The effect validation message. -/
def effectErrMessage : String :=
  "effect must be: 'allow' or 'deny'"

/-- The duplicate-policy message, naming the duplicate and the role. -/
def duplicatePolicyMessage (policy roleName : String) : String :=
  "policy '" ++ policy ++ "' already exists for role '" ++ roleName ++ "'"

/-- Modelled from the spec: grammar validation of one policy string against its
project/role pair (spec section 4.2): six fields — marker, subject,
resource-kind, action, object, effect; the subject must be exactly
`proj:<project>:<role>`, the object must reference the owning project, the
effect must be `allow` or `deny`; each failure names what is expected. -/
def validatePolicy (projName roleName policy : String) : Except StatusError Unit :=
  match policyFields policy with
  | [_, subject, _, _, object, effect] =>
    if subject ≠ expectedSubject projName roleName then
      .error ⟨.InvalidArgument, subjectErrMessage projName roleName⟩
    else if ¬ objectForProject projName object then
      .error ⟨.InvalidArgument, objectErrMessage projName⟩
    else if effect ≠ "allow" ∧ effect ≠ "deny" then
      .error ⟨.InvalidArgument, effectErrMessage⟩
    else .ok ()
  | _ => .error ⟨.InvalidArgument, "invalid policy rule '" ++ policy ++ "'"⟩

/-- Modelled from the spec: scanning a role's policy list in order, validating
each policy and failing with `AlreadyExists` when a policy repeats a previously
seen one after canonicalization (spec section 4.2); `seen` holds the canonical
forms already scanned. -/
def validatePoliciesAux (projName roleName : String) :
    List String → List String → Except StatusError Unit
  | _, [] => .ok ()
  | seen, p :: ps =>
    match validatePolicy projName roleName p with
    | .error e => .error e
    | .ok () =>
      let np := normalizePolicy p
      if np ∈ seen then
        .error ⟨.AlreadyExists, duplicatePolicyMessage np roleName⟩
      else validatePoliciesAux projName roleName (np :: seen) ps

/-- Modelled from the spec: validation of one role's whole policy list (spec
section 4.2). -/
def validateRolePolicies (projName : String) (role : ProjectRole) :
    Except StatusError Unit :=
  validatePoliciesAux projName role.name [] role.policies

/-- Modelled from the spec: validation over every role's policy list, stopping
at the first offending policy (spec section 4.2). -/
def validateProjectPolicies (projName : String) :
    List ProjectRole → Except StatusError Unit
  | [] => .ok ()
  | r :: rs =>
    match validateRolePolicies projName r with
    | .error e => .error e
    | .ok () => validateProjectPolicies projName rs

/-- Modelled from the spec: the project with every role's policies replaced by
their canonical form, as persisted by Update (spec section 4.2). -/
def normalizeProjectPolicies (p : AppProject) : AppProject :=
  { p with spec :=
      { p.spec with roles := (p.spec.roles.map
          (fun r => { r with policies := r.policies.map normalizePolicy })) } }

/-! ### Impact validator (spec section 4.4) -/

/-- Modelled from the spec: whether one destination entry covers an
application's destination: the namespace pattern matches the application's
namespace, and the server pattern matches the application's server or the name
pattern matches the application's name, whichever the application specifies
(spec section 4.4). -/
def destMatches (d : ApplicationDestination) (appDest : ApplicationDestination) : Bool :=
  matchesGlob d.ns appDest.ns &&
    (if appDest.server ≠ "" then matchesGlob d.server appDest.server
     else matchesGlob d.name appDest.name)

/-- Modelled from the spec: whether some entry of the new destination list
covers the application's destination (spec section 4.4). -/
def appDestCovered (dests : List ApplicationDestination) (a : Application) : Bool :=
  dests.any (fun d => destMatches d a.destination)

/-- Modelled from the spec: whether each of the application's source repository
URLs matches at least one pattern of the new source-repo list (spec section
4.4). -/
def appSourcesCovered (repos : List String) (a : Application) : Bool :=
  a.sources.all (fun s => repos.any (fun p => matchesGlob p s))

/-- Modelled from the spec: the number of applications whose destination the
new spec no longer covers (spec section 4.4). -/
def invalidDestCount (spec : AppProjectSpec) (apps : List Application) : Nat :=
  (apps.filter (fun a => !appDestCovered spec.destinations a)).length

/-- Modelled from the spec: the number of applications with at least one
uncovered source repository URL, each counted once (spec section 4.4). -/
def invalidSrcCount (spec : AppProjectSpec) (apps : List Application) : Nat :=
  (apps.filter (fun a => !appSourcesCovered spec.sourceRepos a)).length

/-- The destination-impact message with the exact count. -/
def destsInvalidMessage (n : Nat) : String :=
  "as a result of project update " ++ toString n
    ++ " applications destination became invalid"

/-- The source-impact message with the exact count. -/
def sourcesInvalidMessage (n : Nat) : String :=
  "as a result of project update " ++ toString n
    ++ " applications source became invalid"

/-- Modelled from the spec: the impact validator (spec section 4.4): reject the
update when any application loses destination or source coverage under the new
spec; the destination check takes precedence and only one message is ever
returned. -/
def validateAppImpact (spec : AppProjectSpec) (apps : List Application) :
    Except StatusError Unit :=
  if invalidDestCount spec apps > 0 then
    .error ⟨.InvalidArgument, destsInvalidMessage (invalidDestCount spec apps)⟩
  else if invalidSrcCount spec apps > 0 then
    .error ⟨.InvalidArgument, sourcesInvalidMessage (invalidSrcCount spec apps)⟩
  else .ok ()

/-! ### Update orchestration (spec sections 2 and 4) -/

/-- Modelled from the spec: the project server's `Update` (spec section 2,
`server/project` is not among the provided sources): authorization cascade
first, then policy grammar validation over every role, then the impact
validator against the live applications referencing the project; on success the
project persists with canonicalized policies. -/
def updateProject (enforce : String → String → String → Bool)
    (old new : AppProject) (apps : List Application) :
    Except StatusError AppProject :=
  match authorizeUpdate enforce new.name old.spec new.spec with
  | some pe => .error ⟨.PermissionDenied, permissionDeniedMessage pe⟩
  | Option.none =>
    match validateProjectPolicies new.name new.spec.roles with
    | .error e => .error e
    | .ok () =>
      match validateAppImpact new.spec (referencingApps apps new.name) with
      | .error e => .error e
      | .ok () => .ok (normalizeProjectPolicies new)

/-! ### Token lifecycle (spec section 4.5) -/

/-- The role of the given name, if any. -/
def findRole (p : AppProject) (roleName : String) : Option ProjectRole :=
  p.spec.roles.find? (fun r => r.name == roleName)

/-- Replacing (or inserting) one role's entry of the status token projection. -/
def upsertTokens (m : List (String × List JWTToken)) (k : String)
    (v : List JWTToken) : List (String × List JWTToken) :=
  match m with
  | [] => [(k, v)]
  | (k1, v1) :: rest =>
    if k1 == k then (k, v) :: rest else (k1, v1) :: upsertTokens rest k v

/-- Modelled from the spec: storing a role's full token list into the role and
mirroring it into the status projection for that role (spec section 4.5). -/
def setRoleTokens (p : AppProject) (roleName : String)
    (tokens : List JWTToken) : AppProject :=
  { p with
    spec :=
      { p.spec with roles := (p.spec.roles.map
          (fun r =>
            if r.name == roleName then { r with jwtTokens := tokens } else r)) }
    status := ⟨upsertTokens p.status.jwtTokensByRole roleName tokens⟩ }

/-- The unknown-role error of the token lifecycle calls. -/
def roleNotFoundError (projName roleName : String) : StatusError :=
  ⟨.NotFound, "role '" ++ roleName ++ "' does not exist in project '"
    ++ projName ++ "'"⟩

/-- The duplicate-token-id message. -/
def tokenIdUsedMessage (id : String) : String :=
  "Token id '" ++ id ++ "' has been used. "

/-- Modelled from the spec: `CreateToken` (spec section 4.5): the role must
exist; a caller-supplied id (case-sensitive exact match) colliding with any
existing token id of that role fails the call; otherwise a token issued now is
appended to the role's token list and mirrored into the status projection. -/
def createToken (p : AppProject) (roleName id : String) (now expiresIn : Int) :
    Except StatusError (AppProject × JWTToken) :=
  match findRole p roleName with
  | Option.none => .error (roleNotFoundError p.name roleName)
  | some role =>
    if id ≠ "" ∧ ∃ t ∈ role.jwtTokens, t.id = id then
      .error ⟨.InvalidArgument, tokenIdUsedMessage id⟩
    else
      let tok : JWTToken :=
        { issuedAt := now
          expiresAt := if expiresIn > 0 then now + expiresIn else 0
          id := id }
      .ok (setRoleTokens p roleName (role.jwtTokens ++ [tok]), tok)

/-- Modelled from the spec: `DeleteToken` (spec section 4.5): when an id is
supplied, the token whose id equals it is removed regardless of the request's
issuedAt (id takes precedence as the match key); without an id the token whose
issuedAt equals the request value is removed; no match is not an error. -/
def deleteToken (p : AppProject) (roleName : String) (iat : Int) (id : String) :
    Except StatusError AppProject :=
  match findRole p roleName with
  | Option.none => .error (roleNotFoundError p.name roleName)
  | some role =>
    let remaining :=
      if id ≠ "" then role.jwtTokens.filter (fun t => t.id != id)
      else role.jwtTokens.filter (fun t => t.issuedAt != iat)
    .ok (setRoleTokens p roleName remaining)

/-! ### The generic redis cache client (`util/cache/redis.go`, from the source)

The external collaborators (the go-redis client, the rediscache library, the
JSON encoder and the gzip compressor) appear as parameters; the embedded code
is exactly the branching and error-mapping logic of `redisCache`. -/

/-- The compression modes of the redis cache (`RedisCompressionType`,
redis.go lines 21-26). -/
inductive RedisCompressionType where
  | none
  | gzip
deriving DecidableEq, Repr

/-- The dedicated cache errors a `CacheClient` reports: the cache-miss sentinel
`ErrCacheMiss`, or any other underlying error carried unchanged (identified by
its `Error()` string). -/
inductive CacheErr where
  | ErrCacheMiss
  | other (msg : String)
deriving DecidableEq, Repr

/-- What the underlying `rediscache.Cache.Get` call reports: the raw stored
bytes, the library's own miss error `rediscache.ErrCacheMiss`, or another error
with the given message. -/
inductive LibGetResult where
  | ok (data : List Nat)
  | libCacheMiss
  | err (msg : String)
deriving DecidableEq, Repr

/-- `redisCache.getKey` (redis.go lines 57-64): under gzip compression the
stored key carries a `.gz` suffix. -/
def redisCache_getKey (ct : RedisCompressionType) (key : String) : String :=
  match ct with
  | .gzip => key ++ ".gz"
  | .none => key

/-- `redisCache.marshal` (redis.go lines 66-88): JSON-encode the object and,
under gzip compression, pass the encoded bytes through the gzip writer (the
encoder `jsonEncode` and the compressor `gzipCompress` are the external
libraries, taken as parameters). -/
def redisCache_marshal (ct : RedisCompressionType) (jsonEncode : α → List Nat)
    (gzipCompress : List Nat → List Nat) (obj : α) : List Nat :=
  match ct with
  | .none => jsonEncode obj
  | .gzip => gzipCompress (jsonEncode obj)

/-- `redisCache.unmarshal` (redis.go lines 90-104): under gzip compression the
data first goes through the gzip reader (a reader-construction error is
returned as is); a JSON decode failure is wrapped with a
`failed to decode cached data` prefix. -/
def redisCache_unmarshal (ct : RedisCompressionType)
    (jsonDecode : List Nat → Except String α)
    (gzipDecompress : List Nat → Except String (List Nat)) (data : List Nat) :
    Except String α :=
  match ct with
  | .none =>
    match jsonDecode data with
    | .error e => .error ("failed to decode cached data: " ++ e)
    | .ok v => .ok v
  | .gzip =>
    match gzipDecompress data with
    | .error e => .error e
    | .ok d =>
      match jsonDecode d with
      | .error e => .error ("failed to decode cached data: " ++ e)
      | .ok v => .ok v

/-- `redisCache.Rename` (redis.go lines 106-113): the result of the underlying
`client.Rename` call is `none` on success or `some msg` with the error's
message; an error whose message is exactly `ERR no such key` is mapped to
`ErrCacheMiss`, every other error is returned unchanged. -/
def redisCache_Rename (underlying : Option String) : Option CacheErr :=
  match underlying with
  | Option.none => Option.none
  | some msg =>
    if msg = "ERR no such key" then some .ErrCacheMiss else some (.other msg)

/-- `redisCache.Get` (redis.go lines 134-144): the library's miss error is
mapped to the dedicated `ErrCacheMiss`, any other underlying error is returned
unchanged, and on success the raw bytes are unmarshalled (the unmarshalling
step, including decompression, is a parameter here; its error is returned as
the call's error). -/
def redisCache_Get (underlying : LibGetResult)
    (unmarshal : List Nat → Except String α) : Except CacheErr α :=
  match underlying with
  | .libCacheMiss => .error .ErrCacheMiss
  | .err msg => .error (.other msg)
  | .ok data =>
    match unmarshal data with
    | .error e => .error (.other e)
    | .ok v => .ok v

/-- `redisCache.Set` (redis.go lines 115-132) restricted to the storage effect:
marshal the object and store the bytes under the compression-adjusted key (the
store is a key-to-bytes map; TTL and SetNX concern the external store and are
out of scope of the verified claims). -/
def redisCache_Set (ct : RedisCompressionType) (jsonEncode : α → List Nat)
    (gzipCompress : List Nat → List Nat) (store : String → Option (List Nat))
    (key : String) (obj : α) : String → Option (List Nat) :=
  fun k =>
    if k = redisCache_getKey ct key then
      some (redisCache_marshal ct jsonEncode gzipCompress obj)
    else store k

/-- Fetching a key from the modelled store, producing what the underlying
library's Get reports: absent keys are the library's cache miss. -/
def storeFetch (store : String → Option (List Nat)) (k : String) : LibGetResult :=
  match store k with
  | Option.none => .libCacheMiss
  | some d => .ok d

/-! ### Sample inputs for the witnesses, mirroring the test scenarios -/

/-- Witness enforcement: the caller holds `projects:update` only (the denial
scenarios of the cascade tests). -/
def enfProjectsOnly : String → String → String → Bool :=
  fun resource _ _ => resource == "projects"

/-- Witness enforcement: the caller holds everything. -/
def enfAllowAll : String → String → String → Bool :=
  fun _ _ _ => true

/-- The existing project of the test scenarios: two destinations and one source
repo. -/
def existingProj : AppProject :=
  { name := "test"
    spec :=
      { destinations :=
          [{ ns := "ns1", server := "https://server1" },
           { ns := "ns2", server := "https://server2" }]
        sourceRepos := ["https://github.com/argoproj/argo-cd.git"] } }

/-- The updated project of the cluster-denial scenario: destinations removed. -/
def projNoDests : AppProject :=
  { existingProj with spec := { existingProj.spec with destinations := [] } }

/-- The updated project of the repo-denial scenario: source repos removed. -/
def projNoRepos : AppProject :=
  { existingProj with spec := { existingProj.spec with sourceRepos := [] } }

/-- The glob-coverage project: a wildcard destination namespace only. -/
def projOrgGlob : AppProject :=
  { name := "test"
    spec :=
      { destinations := [{ ns := "org1-*", server := "https://server1" }]
        sourceRepos := ["*"] } }

/-- An application deployed at `org1-team1` on server1, whose source the
wildcard repo list covers. -/
def appOrgTeam1 : Application :=
  { name := "test", project := "test"
    sources := ["https://github.com/argoproj/argo-cd.git"]
    destination := { ns := "org1-team1", server := "https://server1" } }

/-- An application at `ns1` on server1 referencing the test project. -/
def appNs1 : Application :=
  { name := "test", project := "test"
    sources := ["https://github.com/argoproj/argo-cd.git"]
    destination := { ns := "ns1", server := "https://server1" } }

/-- The updated project of the destination-impact scenario: only the second
destination remains. -/
def projDestTail : AppProject :=
  { existingProj with spec :=
      { existingProj.spec with destinations :=
          [{ ns := "ns2", server := "https://server2" }] } }

/-- The wildcard-source project of the source-coverage scenario. -/
def projWildcardSrc : AppProject :=
  { name := "test"
    spec :=
      { destinations := [{ ns := "ns1", server := "https://server1" }]
        sourceRepos := ["https://github.com/argoproj/*"] } }

/-- A well-formed policy of the test role of project `test`. -/
def polValid : String :=
  "p, proj:test:testRole, applications, create, test/testApplication, allow"

/-- The same policy authored without spaces around the commas. -/
def polNoSpaces : String :=
  "p,proj:test:testRole,applications,create,test/testApplication,allow"

/-- A policy whose subject names another project. -/
def polWrongSubject : String :=
  "p, proj:other-project:testRole, applications, create, test/testApplication, allow"

/-- A policy whose object references another project. -/
def polWrongObject : String :=
  "p, proj:test:testRole, applications, create, other-project/testApplication, allow"

/-- A policy with an effect that is neither allow nor deny. -/
def polWrongEffect : String :=
  "p, proj:test:testRole, applications, create, test/testApplication, testEffect"

/-- A role carrying the same policy twice. -/
def roleDupPolicy : ProjectRole :=
  { name := "testRole", policies := [polValid, polValid] }

/-- A project with one role holding one token with a caller-supplied id. -/
def projWithRole : AppProject :=
  { name := "test"
    spec :=
      { roles := [{ name := "testToken",
                    jwtTokens := [{ issuedAt := 1, id := "testId" }] }] } }

/-- A project with one role holding two tokens with distinct ids. -/
def projTwoTokens : AppProject :=
  { name := "test"
    spec :=
      { roles := [{ name := "testToken",
                    jwtTokens := [{ issuedAt := 1, id := "testId" },
                                  { issuedAt := 2, id := "uuid-2" }] }] } }

/-- Sample project for the C7 witness: one role holding one token. -/
def sampleProjC7 : AppProject :=
  { name := "test"
    spec := { roles := [{ name := "roleName", jwtTokens := [{ issuedAt := 1 }] }] } }

/-! ## Theorems -/

theorem lookupTokens_map_roles (roles : List ProjectRole) (n : String) :
    lookupTokens (roles.map (fun r => (r.name, r.jwtTokens))) n
      = (roles.find? (fun r => r.name == n)).map (fun r => r.jwtTokens) := by
  induction roles with
  | nil => rfl
  | cons r rs ih =>
    by_cases h : r.name == n
    · simp [lookupTokens, List.find?_cons_of_pos, h]
    · rw [Bool.not_eq_true] at h
      simp [lookupTokens, List.find?_cons_of_neg, h, ih]

/-- C7: for every project, after `NormalizeProjects` completes the status token
projection equals the spec token list for every role: looking up a role name in
`status.jwtTokensByRole` yields exactly the token list of the (first) spec role
of that name. -/
theorem C7_normalize_status_equals_spec (ps : List AppProject) (q : AppProject)
    (hq : q ∈ normalizeProjects ps) (n : String) :
    lookupTokens q.status.jwtTokensByRole n
      = (q.spec.roles.find? (fun r => r.name == n)).map (fun r => r.jwtTokens) := by
  rcases List.mem_map.mp hq with ⟨p, _, rfl⟩
  exact lookupTokens_map_roles p.spec.roles n

/-- Witness for C7: on a concrete project with one role and one token, the
normalized status projection returns that token list. -/
theorem C7_witness :
    lookupTokens (normalizeProject sampleProjC7).status.jwtTokensByRole "roleName"
      = some [{ issuedAt := 1 }] :=
  (C7_normalize_status_equals_spec [sampleProjC7] (normalizeProject sampleProjC7)
      (by simp [normalizeProjects]) "roleName").trans (by decide)

/-- C8: `Delete(name)` fails with `InvalidArgument` exactly when the project is
named `default` (regardless of its reference count) or when N >= 1 live
applications reference it, the error naming N; deleting a non-default project
referenced by no application succeeds. -/
theorem C8_delete_admission (projName : String) (apps : List Application) :
    ((∃ e, deleteProject projName apps = .error e ∧ e.code = .InvalidArgument)
      ↔ projName = "default" ∨ 1 ≤ (referencingApps apps projName).length)
    ∧ (projName = "default" →
        deleteProject projName apps
          = .error ⟨.InvalidArgument, "cannot delete project 'default'"⟩)
    ∧ (projName ≠ "default" → 1 ≤ (referencingApps apps projName).length →
        deleteProject projName apps
          = .error ⟨.InvalidArgument,
              "project is referenced by "
                ++ toString (referencingApps apps projName).length
                ++ " applications"⟩)
    ∧ (projName ≠ "default" → (referencingApps apps projName).length = 0 →
        deleteProject projName apps = .ok ()) := by
  refine ⟨?_, ?_, ?_, ?_⟩
  · constructor
    · rintro ⟨e, he, -⟩
      by_contra hcon
      push_neg at hcon
      obtain ⟨h1, h2⟩ := hcon
      rw [deleteProject, if_neg h1, if_neg (by omega)] at he
      exact Except.noConfusion he
    · rintro (h | h)
      · exact ⟨_, by rw [deleteProject, if_pos h], rfl⟩
      · by_cases hd : projName = "default"
        · exact ⟨_, by rw [deleteProject, if_pos hd], rfl⟩
        · exact ⟨_, by rw [deleteProject, if_neg hd, if_pos (by omega)], rfl⟩
  · intro h
    rw [deleteProject, if_pos h]
  · intro h1 h2
    rw [deleteProject, if_neg h1, if_pos (by omega)]
  · intro h1 h2
    rw [deleteProject, if_neg h1, if_neg (by omega)]

/-- Witness for C8: deleting `default` fails, deleting a project referenced by
one application fails naming the count 1, and deleting an unreferenced
non-default project succeeds. -/
theorem C8_witness :
    deleteProject "default" [] = .error ⟨.InvalidArgument, "cannot delete project 'default'"⟩
    ∧ deleteProject "test" [{ name := "app", project := "test" }]
        = .error ⟨.InvalidArgument, "project is referenced by 1 applications"⟩
    ∧ deleteProject "test" [] = .ok () := by
  refine ⟨(C8_delete_admission "default" []).2.1 rfl, ?_, ?_⟩
  · exact (C8_delete_admission "test" [{ name := "app", project := "test" }]).2.2.1
      (by decide) (by decide)
  · exact (C8_delete_admission "test" []).2.2.2 (by decide) (by decide)

theorem updateProject_denied (enforce : String → String → String → Bool)
    (old new : AppProject) (apps : List Application) (pe : PermissionError)
    (h : authorizeUpdate enforce new.name old.spec new.spec = some pe) :
    updateProject enforce old new apps
      = .error ⟨.PermissionDenied, permissionDeniedMessage pe⟩ := by
  unfold updateProject
  rw [h]

theorem authorizeUpdate_clusters_first (enforce : String → String → String → Bool)
    (projName : String) (old new : AppProjectSpec) (d : ApplicationDestination)
    (ds : List ApplicationDestination)
    (hp : enforce "projects" "update" projName = true)
    (hc : ∀ o, enforce "clusters" "update" o = false)
    (hchg : old.destinations ≠ new.destinations
      ∨ old.clusterResourceWhitelist ≠ new.clusterResourceWhitelist
      ∨ old.namespaceResourceBlacklist ≠ new.namespaceResourceBlacklist)
    (hdest : old.destinations = d :: ds) :
    authorizeUpdate enforce projName old new
      = some ⟨"clusters", "update", serverOrName d⟩ := by
  unfold authorizeUpdate
  rw [if_pos hp]
  unfold derivedChecks
  rw [if_pos hchg, hdest]
  simp [List.find?_cons_of_pos, hc]

theorem authorizeUpdate_repos_first (enforce : String → String → String → Bool)
    (projName : String) (old new : AppProjectSpec) (r : String) (rs : List String)
    (hp : enforce "projects" "update" projName = true)
    (hr : ∀ o, enforce "repositories" "update" o = false)
    (hd : old.destinations = new.destinations)
    (hw : old.clusterResourceWhitelist = new.clusterResourceWhitelist)
    (hb : old.namespaceResourceBlacklist = new.namespaceResourceBlacklist)
    (hs : old.sourceRepos ≠ new.sourceRepos)
    (hrepo : old.sourceRepos = r :: rs) :
    authorizeUpdate enforce projName old new
      = some ⟨"repositories", "update", r⟩ := by
  unfold authorizeUpdate
  rw [if_pos hp]
  unfold derivedChecks
  rw [if_neg (by push_neg; exact ⟨hd, hw, hb⟩), if_pos hs, hrepo]
  simp [List.find?_cons_of_pos, hr]

/-- C1: for every Update where the caller holds `projects:update` but not
`clusters:update`, changing the destinations, the cluster-resource whitelist or
the namespace-resource blacklist is denied with a permission-denied error
naming resource kind `clusters`, action `update` and the first destination's
server; a caller lacking `repositories:update` changing the source repos is
denied naming `repositories`, `update` and the first repo URL; only the first
failing check of the cascade is reported. -/
theorem C1_authorization_cascade :
    (∀ (enforce : String → String → String → Bool) (old new : AppProject)
        (apps : List Application) (d : ApplicationDestination)
        (ds : List ApplicationDestination),
      enforce "projects" "update" new.name = true →
      (∀ o, enforce "clusters" "update" o = false) →
      (old.spec.destinations ≠ new.spec.destinations
        ∨ old.spec.clusterResourceWhitelist ≠ new.spec.clusterResourceWhitelist
        ∨ old.spec.namespaceResourceBlacklist ≠ new.spec.namespaceResourceBlacklist) →
      old.spec.destinations = d :: ds →
      updateProject enforce old new apps
        = .error ⟨.PermissionDenied,
            permissionDeniedMessage ⟨"clusters", "update", serverOrName d⟩⟩)
    ∧ (∀ (enforce : String → String → String → Bool) (old new : AppProject)
        (apps : List Application) (r : String) (rs : List String),
      enforce "projects" "update" new.name = true →
      (∀ o, enforce "repositories" "update" o = false) →
      old.spec.destinations = new.spec.destinations →
      old.spec.clusterResourceWhitelist = new.spec.clusterResourceWhitelist →
      old.spec.namespaceResourceBlacklist = new.spec.namespaceResourceBlacklist →
      old.spec.sourceRepos ≠ new.spec.sourceRepos →
      old.spec.sourceRepos = r :: rs →
      updateProject enforce old new apps
        = .error ⟨.PermissionDenied,
            permissionDeniedMessage ⟨"repositories", "update", r⟩⟩) := by
  constructor
  · intro enforce old new apps d ds hp hc hchg hdest
    exact updateProject_denied enforce old new apps _
      (authorizeUpdate_clusters_first enforce new.name old.spec new.spec d ds
        hp hc hchg hdest)
  · intro enforce old new apps r rs hp hr hd hw hb hs hrepo
    exact updateProject_denied enforce old new apps _
      (authorizeUpdate_repos_first enforce new.name old.spec new.spec r rs
        hp hr hd hw hb hs hrepo)

/-- Witness for C1: with a caller holding `projects:update` only, removing the
destinations of the test project is denied naming `clusters`, `update` and
`https://server1`, and removing its source repos is denied naming
`repositories`, `update` and the repo URL. -/
theorem C1_witness :
    updateProject enfProjectsOnly existingProj projNoDests []
      = .error ⟨.PermissionDenied,
          "permission denied: clusters, update, https://server1"⟩
    ∧ updateProject enfProjectsOnly existingProj projNoRepos []
      = .error ⟨.PermissionDenied,
          "permission denied: repositories, update, https://github.com/argoproj/argo-cd.git"⟩ :=
  ⟨C1_authorization_cascade.1 enfProjectsOnly existingProj projNoDests []
      { ns := "ns1", server := "https://server1" }
      [{ ns := "ns2", server := "https://server2" }]
      rfl (fun _ => rfl) (by decide) rfl,
   C1_authorization_cascade.2 enfProjectsOnly existingProj projNoRepos []
      "https://github.com/argoproj/argo-cd.git" []
      rfl (fun _ => rfl) rfl rfl rfl (by decide) rfl⟩

theorem updateProject_eq_impact (enforce : String → String → String → Bool)
    (old new : AppProject) (apps : List Application)
    (hauth : authorizeUpdate enforce new.name old.spec new.spec = Option.none)
    (hpol : validateProjectPolicies new.name new.spec.roles = .ok ()) :
    updateProject enforce old new apps
      = match validateAppImpact new.spec (referencingApps apps new.name) with
        | .error e => .error e
        | .ok () => .ok (normalizeProjectPolicies new) := by
  unfold updateProject
  rw [hauth, hpol]

/-- C2: an application's destination is covered exactly when some entry of the
new destination list has a namespace pattern matching the application's
namespace and a server (or name, whichever the application specifies) pattern
matching; an Update leaving at least one referencing application uncovered is
rejected with `InvalidArgument` and the message naming the exact count, while
an Update keeping every referencing application covered (and every source
covered) succeeds. -/
theorem C2_destination_impact :
    (∀ (dests : List ApplicationDestination) (a : Application),
      appDestCovered dests a = true ↔
        ∃ d ∈ dests, matchesGlob d.ns a.destination.ns = true ∧
          (if a.destination.server ≠ "" then
            matchesGlob d.server a.destination.server = true
           else matchesGlob d.name a.destination.name = true))
    ∧ (∀ (enforce : String → String → String → Bool) (old new : AppProject)
        (apps : List Application),
      authorizeUpdate enforce new.name old.spec new.spec = Option.none →
      validateProjectPolicies new.name new.spec.roles = .ok () →
      1 ≤ invalidDestCount new.spec (referencingApps apps new.name) →
      updateProject enforce old new apps
        = .error ⟨.InvalidArgument,
            destsInvalidMessage
              (invalidDestCount new.spec (referencingApps apps new.name))⟩)
    ∧ (∀ (enforce : String → String → String → Bool) (old new : AppProject)
        (apps : List Application),
      authorizeUpdate enforce new.name old.spec new.spec = Option.none →
      validateProjectPolicies new.name new.spec.roles = .ok () →
      (∀ a ∈ referencingApps apps new.name,
        appDestCovered new.spec.destinations a = true) →
      invalidSrcCount new.spec (referencingApps apps new.name) = 0 →
      updateProject enforce old new apps = .ok (normalizeProjectPolicies new)) := by
  refine ⟨?_, ?_, ?_⟩
  · intro dests a
    by_cases h : a.destination.server = "" <;>
      simp [appDestCovered, List.any_eq_true, destMatches, h]
  · intro enforce old new apps hauth hpol hcount
    rw [updateProject_eq_impact enforce old new apps hauth hpol]
    unfold validateAppImpact
    rw [if_pos (by omega)]
  · intro enforce old new apps hauth hpol hcov hsrc
    have hdc : invalidDestCount new.spec (referencingApps apps new.name) = 0 := by
      unfold invalidDestCount
      rw [List.length_eq_zero, List.filter_eq_nil_iff]
      intro a ha
      simp [hcov a ha]
    rw [updateProject_eq_impact enforce old new apps hauth hpol]
    unfold validateAppImpact
    rw [if_neg (by omega), if_neg (by omega)]

/-- Witness for C2: removing the first destination of the test project while an
application still deploys to it is rejected counting one application, while a
glob destination `org1-*` still covering an application at `org1-team1` lets
the update succeed. -/
theorem C2_witness :
    updateProject enfAllowAll existingProj projDestTail [appNs1]
      = .error ⟨.InvalidArgument,
          "as a result of project update 1 applications destination became invalid"⟩
    ∧ updateProject enfAllowAll existingProj projOrgGlob [appOrgTeam1]
      = .ok (normalizeProjectPolicies projOrgGlob) := by
  constructor
  · exact C2_destination_impact.2.1 enfAllowAll existingProj projDestTail [appNs1]
      rfl rfl (by decide)
  · exact C2_destination_impact.2.2 enfAllowAll existingProj projOrgGlob [appOrgTeam1]
      rfl rfl (by decide) (by decide)

/-- C3: an application's sources are covered exactly when each of its source
repository URLs matches at least one pattern of the new source-repo list; an
Update leaving some referencing application with an unmatched source (while no
destination broke) is rejected with `InvalidArgument` and the message naming
the count of affected applications, each counted once, while an Update whose
remaining patterns still match every source succeeds. -/
theorem C3_source_impact :
    (∀ (repos : List String) (a : Application),
      appSourcesCovered repos a = true ↔
        ∀ s ∈ a.sources, ∃ p ∈ repos, matchesGlob p s = true)
    ∧ (∀ (enforce : String → String → String → Bool) (old new : AppProject)
        (apps : List Application),
      authorizeUpdate enforce new.name old.spec new.spec = Option.none →
      validateProjectPolicies new.name new.spec.roles = .ok () →
      invalidDestCount new.spec (referencingApps apps new.name) = 0 →
      1 ≤ invalidSrcCount new.spec (referencingApps apps new.name) →
      updateProject enforce old new apps
        = .error ⟨.InvalidArgument,
            sourcesInvalidMessage
              (invalidSrcCount new.spec (referencingApps apps new.name))⟩)
    ∧ (∀ (enforce : String → String → String → Bool) (old new : AppProject)
        (apps : List Application),
      authorizeUpdate enforce new.name old.spec new.spec = Option.none →
      validateProjectPolicies new.name new.spec.roles = .ok () →
      invalidDestCount new.spec (referencingApps apps new.name) = 0 →
      (∀ a ∈ referencingApps apps new.name,
        appSourcesCovered new.spec.sourceRepos a = true) →
      updateProject enforce old new apps = .ok (normalizeProjectPolicies new)) := by
  refine ⟨?_, ?_, ?_⟩
  · intro repos a
    simp [appSourcesCovered, List.all_eq_true, List.any_eq_true]
  · intro enforce old new apps hauth hpol hdc hcount
    rw [updateProject_eq_impact enforce old new apps hauth hpol]
    unfold validateAppImpact
    rw [if_neg (by omega), if_pos (by omega)]
  · intro enforce old new apps hauth hpol hdc hcov
    have hsc : invalidSrcCount new.spec (referencingApps apps new.name) = 0 := by
      unfold invalidSrcCount
      rw [List.length_eq_zero, List.filter_eq_nil_iff]
      intro a ha
      simp [hcov a ha]
    rw [updateProject_eq_impact enforce old new apps hauth hpol]
    unfold validateAppImpact
    rw [if_neg (by omega), if_neg (by omega)]

/-- Witness for C3: emptying the source-repo list while a referencing
application still uses the removed repo is rejected counting one application,
while replacing it with a trailing wildcard that still matches the
application's source succeeds. -/
theorem C3_witness :
    updateProject enfAllowAll existingProj projNoRepos [appNs1]
      = .error ⟨.InvalidArgument,
          "as a result of project update 1 applications source became invalid"⟩
    ∧ updateProject enfAllowAll existingProj projWildcardSrc [appNs1]
      = .ok (normalizeProjectPolicies projWildcardSrc) := by
  constructor
  · exact C3_source_impact.2.1 enfAllowAll existingProj projNoRepos [appNs1]
      rfl rfl (by decide) (by decide)
  · exact C3_source_impact.2.2 enfAllowAll existingProj projWildcardSrc [appNs1]
      rfl rfl (by decide) (by decide)

/-- C4: policy validation behaves as specified: a policy whose subject is not
`proj:<project>:<role>` fails naming the expected subject; a policy whose
object references a different project fails naming the accepted object forms;
an effect other than `allow`/`deny` fails; an identical policy appearing twice
in one role fails with `AlreadyExists` naming the duplicate and the role; and
the same logical policy authored with or without spaces around commas
normalizes to the identical canonical stored form. -/
theorem C4_policy_validation :
    (∀ (projName roleName policy m s r a o e : String),
      policyFields policy = [m, s, r, a, o, e] →
      s ≠ expectedSubject projName roleName →
      validatePolicy projName roleName policy
        = .error ⟨.InvalidArgument, subjectErrMessage projName roleName⟩)
    ∧ (∀ (projName roleName policy m r a o e : String),
      policyFields policy
        = [m, expectedSubject projName roleName, r, a, o, e] →
      objectForProject projName o = false →
      validatePolicy projName roleName policy
        = .error ⟨.InvalidArgument, objectErrMessage projName⟩)
    ∧ (∀ (projName roleName policy m r a o e : String),
      policyFields policy
        = [m, expectedSubject projName roleName, r, a, o, e] →
      objectForProject projName o = true →
      e ≠ "allow" → e ≠ "deny" →
      validatePolicy projName roleName policy
        = .error ⟨.InvalidArgument, effectErrMessage⟩)
    ∧ (∀ (projName p : String) (role : ProjectRole),
      role.policies = [p, p] →
      validatePolicy projName role.name p = .ok () →
      validateRolePolicies projName role
        = .error ⟨.AlreadyExists,
            duplicatePolicyMessage (normalizePolicy p) role.name⟩)
    ∧ ((∀ s t : String, policyFields s = policyFields t →
          normalizePolicy s = normalizePolicy t)
        ∧ normalizePolicy polNoSpaces = polValid
        ∧ normalizePolicy polValid = polValid) := by
  refine ⟨?_, ?_, ?_, ?_, ?_, ?_, ?_⟩
  · intro projName roleName policy m s r a o e hfields hsub
    simp only [validatePolicy, hfields]
    rw [if_pos hsub]
  · intro projName roleName policy m r a o e hfields hobj
    simp only [validatePolicy, hfields]
    rw [if_neg (by simp), if_pos (by simp [hobj])]
  · intro projName roleName policy m r a o e hfields hobj h1 h2
    simp only [validatePolicy, hfields]
    rw [if_neg (by simp), if_neg (by simp [hobj]), if_pos ⟨h1, h2⟩]
  · intro projName p role hpolicies hvalid
    simp [validateRolePolicies, hpolicies, validatePoliciesAux, hvalid]
  · intro s t h
    simp [normalizePolicy, h]
  · decide
  · decide

/-- Witness for C4: against project `test` and role `testRole`, a policy
subject naming another project, an object naming another project and an
unknown effect each fail with their message; the valid policy listed twice in
one role fails with the duplicate message; and the spaceless authoring of the
valid policy normalizes to its canonical form. -/
theorem C4_witness :
    validatePolicy "test" "testRole" polWrongSubject
      = .error ⟨.InvalidArgument, "policy subject must be: 'proj:test:testRole'"⟩
    ∧ validatePolicy "test" "testRole" polWrongObject
      = .error ⟨.InvalidArgument,
          "object must be of form 'test/*', 'test[/<NAMESPACE>]/<APPNAME>' or 'test/<APPNAME>'"⟩
    ∧ validatePolicy "test" "testRole" polWrongEffect
      = .error ⟨.InvalidArgument, "effect must be: 'allow' or 'deny'"⟩
    ∧ validateRolePolicies "test" roleDupPolicy
      = .error ⟨.AlreadyExists,
          "policy 'p, proj:test:testRole, applications, create, test/testApplication, allow' already exists for role 'testRole'"⟩
    ∧ normalizePolicy polNoSpaces = normalizePolicy polValid := by
  refine ⟨?_, ?_, ?_, ?_, ?_⟩
  · exact C4_policy_validation.1 "test" "testRole" polWrongSubject
      "p" "proj:other-project:testRole" "applications" "create"
      "test/testApplication" "allow" (by decide) (by decide)
  · exact C4_policy_validation.2.1 "test" "testRole" polWrongObject
      "p" "applications" "create" "other-project/testApplication" "allow"
      (by decide) (by decide)
  · exact C4_policy_validation.2.2.1 "test" "testRole" polWrongEffect
      "p" "applications" "create" "test/testApplication" "testEffect"
      (by decide) (by decide) (by decide) (by decide)
  · exact C4_policy_validation.2.2.2.1 "test" polValid roleDupPolicy
      rfl rfl
  · exact C4_policy_validation.2.2.2.2.1 polNoSpaces polValid (by decide)

/-- C5: a `CreateToken` call on an existing role with a caller-supplied id
equal (case-sensitive, exact) to the id of any existing token of that role
fails with the token-id-used `InvalidArgument` error and yields no new state,
while a `CreateToken` without an id never collides and appends a freshly
issued token to the role's token list. -/
theorem C5_create_token_id :
    (∀ (p : AppProject) (roleName id : String) (now expiresIn : Int)
        (role : ProjectRole),
      findRole p roleName = some role →
      id ≠ "" → (∃ t ∈ role.jwtTokens, t.id = id) →
      createToken p roleName id now expiresIn
        = .error ⟨.InvalidArgument, tokenIdUsedMessage id⟩)
    ∧ (∀ (p : AppProject) (roleName : String) (now expiresIn : Int)
        (role : ProjectRole),
      findRole p roleName = some role →
      createToken p roleName "" now expiresIn
        = .ok (setRoleTokens p roleName (role.jwtTokens ++
              [{ issuedAt := now,
                 expiresAt := if expiresIn > 0 then now + expiresIn else 0,
                 id := "" }]),
            { issuedAt := now,
              expiresAt := if expiresIn > 0 then now + expiresIn else 0,
              id := "" })) := by
  constructor
  · intro p roleName id now expiresIn role hrole hid hdup
    simp only [createToken, hrole]
    rw [if_pos ⟨hid, hdup⟩]
  · intro p roleName now expiresIn role hrole
    simp only [createToken, hrole]
    rw [if_neg (by simp)]

/-- Witness for C5: on a role already holding a token with id `testId`,
creating another token with the same id fails with the token-id-used error,
while creating a token without an id appends it. -/
theorem C5_witness :
    createToken projWithRole "testToken" "testId" 2 1
      = .error ⟨.InvalidArgument, "Token id 'testId' has been used. "⟩
    ∧ createToken projWithRole "testToken" "" 2 1
      = .ok (setRoleTokens projWithRole "testToken"
            [{ issuedAt := 1, id := "testId" }, { issuedAt := 2, expiresAt := 3 }],
          { issuedAt := 2, expiresAt := 3 }) := by
  constructor
  · exact C5_create_token_id.1 projWithRole "testToken" "testId" 2 1
      { name := "testToken", jwtTokens := [{ issuedAt := 1, id := "testId" }] }
      (by decide) (by decide) ⟨{ issuedAt := 1, id := "testId" }, by decide, rfl⟩
  · exact C5_create_token_id.2 projWithRole "testToken" 2 1
      { name := "testToken", jwtTokens := [{ issuedAt := 1, id := "testId" }] }
      (by decide)

/-- C6: a `DeleteToken` call supplying an id removes exactly the tokens whose
id equals the supplied value, regardless of the request's issuedAt — the same
result for any issuedAt — and leaves every other token of the role in place. -/
theorem C6_delete_token_by_id
    (p : AppProject) (roleName : String) (iat iat2 : Int) (id : String)
    (role : ProjectRole)
    (hrole : findRole p roleName = some role)
    (hid : id ≠ "") :
    deleteToken p roleName iat id
      = .ok (setRoleTokens p roleName
          (role.jwtTokens.filter (fun t => t.id != id)))
    ∧ deleteToken p roleName iat id = deleteToken p roleName iat2 id
    ∧ (∀ t ∈ role.jwtTokens,
        (t ∈ role.jwtTokens.filter (fun t => t.id != id) ↔ t.id ≠ id)) := by
  have hres : ∀ j : Int, deleteToken p roleName j id
      = .ok (setRoleTokens p roleName
          (role.jwtTokens.filter (fun t => t.id != id))) := by
    intro j
    simp only [deleteToken, hrole]
    rw [if_pos hid]
  refine ⟨hres iat, (hres iat).trans (hres iat2).symm, ?_⟩
  intro t ht
  simp [List.mem_filter, ht, bne_iff_ne]

/-- Witness for C6: deleting by id `testId` with the other token's issuedAt in
the request still removes the `testId` token and keeps the other one. -/
theorem C6_witness :
    deleteToken projTwoTokens "testToken" 2 "testId"
      = .ok (setRoleTokens projTwoTokens "testToken"
          [{ issuedAt := 2, id := "uuid-2" }]) :=
  (C6_delete_token_by_id projTwoTokens "testToken" 2 1 "testId"
    { name := "testToken",
      jwtTokens := [{ issuedAt := 1, id := "testId" },
                    { issuedAt := 2, id := "uuid-2" }] }
    (by decide) (by decide)).1

/-- C9: the generic cache distinguishes a miss from a transport error: `Get` on
an absent key maps the library's miss error to the dedicated `ErrCacheMiss`,
`Rename` maps the store's `ERR no such key` error to `ErrCacheMiss`, and any
other underlying error is returned unchanged (and a successful rename reports
no error). -/
theorem C9_cache_miss_vs_transport (α : Type) :
    (∀ unmarshal : List Nat → Except String α,
      redisCache_Get .libCacheMiss unmarshal = .error .ErrCacheMiss)
    ∧ redisCache_Rename (some "ERR no such key") = some .ErrCacheMiss
    ∧ (∀ msg, msg ≠ "ERR no such key" →
        redisCache_Rename (some msg) = some (.other msg))
    ∧ (∀ (unmarshal : List Nat → Except String α) (msg : String),
        redisCache_Get (.err msg) unmarshal = .error (.other msg))
    ∧ redisCache_Rename Option.none = Option.none := by
  refine ⟨fun _ => rfl, rfl, ?_, fun _ _ => rfl, rfl⟩
  intro msg h
  simp [redisCache_Rename, h]

/-- Witness for C9: a transport error message other than the no-such-key one
passes through `Rename` unchanged. -/
theorem C9_witness :
    redisCache_Rename (some "connection refused") = some (.other "connection refused") :=
  (C9_cache_miss_vs_transport (List Nat)).2.2.1 "connection refused" (by decide)

/-- C10: for every JSON round-trippable value and for both compression types,
the cache serialization round-trips: `unmarshal` after `marshal` recovers the
value, and a value stored by `Set` is recovered identically by `Get` under the
same compression setting, so gzip compression is transparent to callers. -/
theorem C10_serialization_roundtrip (α : Type) (jsonEncode : α → List Nat)
    (jsonDecode : List Nat → Except String α)
    (gzipCompress : List Nat → List Nat)
    (gzipDecompress : List Nat → Except String (List Nat))
    (hjson : ∀ v, jsonDecode (jsonEncode v) = .ok v)
    (hgzip : ∀ b, gzipDecompress (gzipCompress b) = .ok b)
    (ct : RedisCompressionType) (v : α) :
    redisCache_unmarshal ct jsonDecode gzipDecompress
        (redisCache_marshal ct jsonEncode gzipCompress v) = .ok v
    ∧ ∀ (store : String → Option (List Nat)) (key : String),
        redisCache_Get
            (storeFetch (redisCache_Set ct jsonEncode gzipCompress store key v)
              (redisCache_getKey ct key))
            (redisCache_unmarshal ct jsonDecode gzipDecompress) = .ok v := by
  have hrt : redisCache_unmarshal ct jsonDecode gzipDecompress
      (redisCache_marshal ct jsonEncode gzipCompress v) = .ok v := by
    cases ct <;> simp [redisCache_marshal, redisCache_unmarshal, hjson, hgzip]
  refine ⟨hrt, ?_⟩
  intro store key
  simp [storeFetch, redisCache_Set, redisCache_Get, hrt]

/-- Witness for C10: with a concrete encoder, decoder and reversible
compressor, a value marshalled under gzip compression unmarshals back to
itself, and a Set-then-Get through the modelled store recovers it. -/
theorem C10_witness :
    (redisCache_unmarshal .gzip
        (fun l => match l with | [n] => Except.ok n | _ => Except.error "invalid")
        (fun l => Except.ok l.reverse)
        (redisCache_marshal .gzip (fun n : Nat => [n]) List.reverse 42) = .ok 42)
    ∧ redisCache_Get
        (storeFetch
          (redisCache_Set .gzip (fun n : Nat => [n]) List.reverse
            (fun _ => Option.none) "key" 42)
          (redisCache_getKey .gzip "key"))
        (redisCache_unmarshal .gzip
          (fun l => match l with | [n] => Except.ok n | _ => Except.error "invalid")
          (fun l => Except.ok l.reverse)) = .ok 42 := by
  have h := C10_serialization_roundtrip Nat (fun n => [n])
    (fun l => match l with | [n] => Except.ok n | _ => Except.error "invalid")
    List.reverse (fun l => Except.ok l.reverse)
    (fun _ => rfl) (fun b => by simp) .gzip 42
  exact ⟨h.1, h.2 (fun _ => Option.none) "key"⟩

end Argo
